import Mathlib

/-!
Verification of the import-aggregation ("barrel") modules of the
Apache Submarine python client SDK excerpt:

  submarine-sdk/pysubmarine/submarine/client/apis/__init__.py
  submarine-sdk/pysubmarine/submarine/client/models/__init__.py

Each file is a flat sequence of python statements of the form
`from <dotted.module.path> import <ClassName>`.  We embed each file as a
list of such statements (module path as a list of dot-separated
components, plus the imported class name), in the exact order they appear
in the source, and give the standard python semantics of executing such a
module: each statement resolves the named symbol in the named defining
module (failing with ImportError when it does not resolve) and binds the
symbol's name to the resolved object in the aggregator module's namespace.
-/

namespace SubmarineClient

/-- One python statement `from <module> import <symbol>`:
`module` is the dotted path of the defining module, split at the dots,
and `symbol` the class name being imported. -/
structure ImportStmt where
  module : List String
  symbol : String
deriving DecidableEq, Repr

/-- The statements of `submarine/client/apis/__init__.py` (lines 32-39),
in source order. -/
def apisImports : List ImportStmt :=
  [ ⟨["submarine", "client", "api", "environment_api"], "EnvironmentApi"⟩,
    ⟨["submarine", "client", "api", "experiment_api"], "ExperimentApi"⟩,
    ⟨["submarine", "client", "api", "experiment_template_api"], "ExperimentTemplateApi"⟩,
    ⟨["submarine", "client", "api", "experiment_templates_api"], "ExperimentTemplatesApi"⟩,
    ⟨["submarine", "client", "api", "model_version_api"], "ModelVersionApi"⟩,
    ⟨["submarine", "client", "api", "notebook_api"], "NotebookApi"⟩,
    ⟨["submarine", "client", "api", "registered_model_api"], "RegisteredModelApi"⟩,
    ⟨["submarine", "client", "api", "serve_api"], "ServeApi"⟩ ]

/-- The statements of `submarine/client/models/__init__.py` (lines 27-45),
in source order. -/
def modelsImports : List ImportStmt :=
  [ ⟨["submarine", "client", "model", "code_spec"], "CodeSpec"⟩,
    ⟨["submarine", "client", "model", "environment_spec"], "EnvironmentSpec"⟩,
    ⟨["submarine", "client", "model", "experiment_meta"], "ExperimentMeta"⟩,
    ⟨["submarine", "client", "model", "experiment_spec"], "ExperimentSpec"⟩,
    ⟨["submarine", "client", "model", "experiment_task_spec"], "ExperimentTaskSpec"⟩,
    ⟨["submarine", "client", "model", "experiment_template_param_spec"],
      "ExperimentTemplateParamSpec"⟩,
    ⟨["submarine", "client", "model", "experiment_template_spec"], "ExperimentTemplateSpec"⟩,
    ⟨["submarine", "client", "model", "experiment_template_submit"], "ExperimentTemplateSubmit"⟩,
    ⟨["submarine", "client", "model", "git_code_spec"], "GitCodeSpec"⟩,
    ⟨["submarine", "client", "model", "json_response"], "JsonResponse"⟩,
    ⟨["submarine", "client", "model", "kernel_spec"], "KernelSpec"⟩,
    ⟨["submarine", "client", "model", "model_version_entity"], "ModelVersionEntity"⟩,
    ⟨["submarine", "client", "model", "notebook_meta"], "NotebookMeta"⟩,
    ⟨["submarine", "client", "model", "notebook_pod_spec"], "NotebookPodSpec"⟩,
    ⟨["submarine", "client", "model", "notebook_spec"], "NotebookSpec"⟩,
    ⟨["submarine", "client", "model", "registered_model_entity"], "RegisteredModelEntity"⟩,
    ⟨["submarine", "client", "model", "serve_spec"], "ServeSpec"⟩ ]

/-- Dotted path of the `apis` aggregator package itself. -/
def apisAggregatorPath : List String := ["submarine", "client", "apis"]

/-- Dotted path of the `models` aggregator package itself. -/
def modelsAggregatorPath : List String := ["submarine", "client", "models"]

/-- The symbol names an aggregator module exports: executing a flat list of
`from M import N` statements binds exactly the names `N`, in order. -/
def exportedNames (imps : List ImportStmt) : List String :=
  imps.map (fun i => i.symbol)

/-- Python semantics of executing a flat list of `from M import N`
statements, against an environment `env` that maps a defining module path
and a symbol name to the object the defining module holds under that name
(`none` when the module or attribute does not resolve).  Execution is
sequential: the first unresolvable import aborts the whole module load
(python raises ImportError / ModuleNotFoundError); on success the result
is the association list of bindings the aggregator namespace receives. -/
def resolveImports {α : Type} (env : List String → String → Option α) :
    List ImportStmt → Option (List (String × α))
  | [] => some []
  | i :: rest =>
    match env i.module i.symbol with
    | none => none
    | some v =>
      match resolveImports env rest with
      | none => none
      | some bs => some ((i.symbol, v) :: bs)

/-- The snake_case rendering of a CamelCase class name: every uppercase
letter is lowercased, and every uppercase letter other than the first
character is preceded by an underscore.  This is the naming convention the
generated SDK uses to derive a defining submodule name from a class name. -/
def snakeCase (s : String) : String :=
  match s.data with
  | [] => ""
  | c :: rest =>
    String.mk (c.toLower :: rest.flatMap (fun d => if d.isUpper then ['_', d.toLower] else [d]))

/-- Last component of an import's defining module path (the submodule that
actually defines the class). -/
def definingSubmodule (i : ImportStmt) : String :=
  i.module.getLastD ""

/-- The endpoint category of an API submodule: its name with the trailing
`_api` suffix removed (e.g. `environment_api` ↦ `environment`). -/
def apiCategory (m : String) : String :=
  if m.data.length ≥ 4 ∧ m.data.drop (m.data.length - 4) = "_api".data then
    String.mk (m.data.take (m.data.length - 4))
  else m

/-- The endpoint categories named in the spec's purpose statement
("environment, experiment, notebook, model-version, registered-model,
serve"), in snake_case. -/
def specCategories : List String :=
  ["environment", "experiment", "notebook", "model_version", "registered_model", "serve"]

/-- The 8 API class names the spec's interface section lists. -/
def specApiClassNames : List String :=
  [ "EnvironmentApi", "ExperimentApi", "ExperimentTemplateApi", "ExperimentTemplatesApi",
    "ModelVersionApi", "NotebookApi", "RegisteredModelApi", "ServeApi" ]

/-- The 17 model class names the spec's interface section lists. -/
def specModelClassNames : List String :=
  [ "CodeSpec", "EnvironmentSpec", "ExperimentMeta", "ExperimentSpec", "ExperimentTaskSpec",
    "ExperimentTemplateParamSpec", "ExperimentTemplateSpec", "ExperimentTemplateSubmit",
    "GitCodeSpec", "JsonResponse", "KernelSpec", "ModelVersionEntity", "NotebookMeta",
    "NotebookPodSpec", "NotebookSpec", "RegisteredModelEntity", "ServeSpec" ]

/-- A concrete total environment (every module/symbol pair resolves),
used to exercise the semantics on concrete runs. -/
def envZero : List String → String → Option Nat := fun _ _ => some 0

/-! ## General lemmas about the import-execution semantics -/

/-- Loading a flat import module fails exactly when some listed statement
references a module/symbol pair the environment cannot resolve. -/
theorem resolveImports_none_iff {α : Type} (env : List String → String → Option α)
    (imps : List ImportStmt) :
    resolveImports env imps = none ↔ ∃ i ∈ imps, env i.module i.symbol = none := by
  induction imps with
  | nil => simp [resolveImports]
  | cons i rest ih =>
    have hstep : resolveImports env (i :: rest) =
        match env i.module i.symbol with
        | none => none
        | some v =>
          match resolveImports env rest with
          | none => none
          | some bs => some ((i.symbol, v) :: bs) := rfl
    rw [hstep]
    cases h : env i.module i.symbol with
    | none =>
      exact iff_of_true rfl ⟨i, List.mem_cons_self i rest, h⟩
    | some v =>
      cases h2 : resolveImports env rest with
      | none =>
        rw [h2] at ih
        refine iff_of_true rfl ?_
        obtain ⟨j, hj, hje⟩ := ih.mp rfl
        exact ⟨j, List.mem_cons_of_mem i hj, hje⟩
      | some bs =>
        rw [h2] at ih
        constructor
        · intro hc; exact Option.noConfusion hc
        · rintro ⟨j, hj, hje⟩
          rcases List.mem_cons.mp hj with hj1 | hj2
          · subst hj1; rw [h] at hje; exact Option.noConfusion hje
          · exact Option.noConfusion (ih.mpr ⟨j, hj2, hje⟩)

/-- A successful load binds exactly the listed symbol names, in source
order: the names of the produced bindings are the module's exported
names and nothing else. -/
theorem resolveImports_map_fst {α : Type} (env : List String → String → Option α) :
    ∀ imps bs, resolveImports env imps = some bs → bs.map Prod.fst = exportedNames imps := by
  intro imps
  induction imps with
  | nil => intro bs hbs; cases hbs; rfl
  | cons i rest ih =>
    intro bs hbs
    have hstep : resolveImports env (i :: rest) =
        match env i.module i.symbol with
        | none => none
        | some v =>
          match resolveImports env rest with
          | none => none
          | some l => some ((i.symbol, v) :: l) := rfl
    rw [hstep] at hbs
    cases h : env i.module i.symbol with
    | none => rw [h] at hbs; exact Option.noConfusion hbs
    | some v =>
      rw [h] at hbs
      cases h2 : resolveImports env rest with
      | none => rw [h2] at hbs; exact Option.noConfusion hbs
      | some l =>
        rw [h2] at hbs
        injection hbs with hbs2
        subst hbs2
        show (i.symbol, v).1 :: l.map Prod.fst = i.symbol :: exportedNames rest
        rw [ih l h2]

/-- Every binding a successful load produces is the object the environment
holds for that symbol in its defining module: the aggregator hands out the
very object of the defining module, not a copy. -/
theorem resolveImports_mem {α : Type} (env : List String → String → Option α) :
    ∀ imps bs, resolveImports env imps = some bs →
      ∀ p ∈ bs, ∃ i ∈ imps, i.symbol = p.1 ∧ env i.module i.symbol = some p.2 := by
  intro imps
  induction imps with
  | nil =>
    intro bs hbs p hp
    cases hbs
    exact absurd hp (List.not_mem_nil p)
  | cons i rest ih =>
    intro bs hbs p hp
    have hstep : resolveImports env (i :: rest) =
        match env i.module i.symbol with
        | none => none
        | some v =>
          match resolveImports env rest with
          | none => none
          | some l => some ((i.symbol, v) :: l) := rfl
    rw [hstep] at hbs
    cases h : env i.module i.symbol with
    | none => rw [h] at hbs; exact Option.noConfusion hbs
    | some v =>
      rw [h] at hbs
      cases h2 : resolveImports env rest with
      | none => rw [h2] at hbs; exact Option.noConfusion hbs
      | some l =>
        rw [h2] at hbs
        injection hbs with hbs2
        subst hbs2
        rcases List.mem_cons.mp hp with h1 | h2m
        · subst h1
          exact ⟨i, List.mem_cons_self i rest, rfl, h⟩
        · obtain ⟨j, hj, hsy, hje⟩ := ih l h2 p h2m
          exact ⟨j, List.mem_cons_of_mem i hj, hsy, hje⟩

/-- Conversely, after a successful load every listed statement has left a
binding, and that binding holds exactly the object the defining module
holds for that symbol. -/
theorem resolveImports_complete {α : Type} (env : List String → String → Option α) :
    ∀ imps bs, resolveImports env imps = some bs →
      ∀ i ∈ imps, ∃ v, (i.symbol, v) ∈ bs ∧ env i.module i.symbol = some v := by
  intro imps
  induction imps with
  | nil =>
    intro bs hbs j hj
    exact absurd hj (List.not_mem_nil j)
  | cons i rest ih =>
    intro bs hbs j hj
    have hstep : resolveImports env (i :: rest) =
        match env i.module i.symbol with
        | none => none
        | some v =>
          match resolveImports env rest with
          | none => none
          | some l => some ((i.symbol, v) :: l) := rfl
    rw [hstep] at hbs
    cases h : env i.module i.symbol with
    | none => rw [h] at hbs; exact Option.noConfusion hbs
    | some v =>
      rw [h] at hbs
      cases h2 : resolveImports env rest with
      | none => rw [h2] at hbs; exact Option.noConfusion hbs
      | some l =>
        rw [h2] at hbs
        injection hbs with hbs2
        subst hbs2
        rcases List.mem_cons.mp hj with h1 | h2m
        · subst h1
          exact ⟨v, List.mem_cons_self _ l, h⟩
        · obtain ⟨v', hv', hje⟩ := ih l h2 j h2m
          exact ⟨v', List.mem_cons_of_mem _ hv', hje⟩

/-! ## The claims -/

/-- C1: the apis aggregation module re-exports exactly the 8 API class
names the spec lists — the list of names it binds, in source order, is
precisely the spec's list, so every one of the 8 names is exported and no
other name is. -/
theorem apis_export_surface : exportedNames apisImports = specApiClassNames := by rfl

/-- C2: the models aggregation module re-exports exactly the 17 model
class names the spec lists — the list of names it binds, in source order,
is precisely the spec's list, so every one of the 17 names is exported and
no other name is. -/
theorem models_export_surface : exportedNames modelsImports = specModelClassNames := by rfl

/-- C3: for every environment under which loading an aggregation module
succeeds, every listed symbol receives a binding, and every binding either
module produces holds exactly the object the defining module holds for
that symbol (the same object, not merely an equal one). -/
theorem aggregator_reexport_identity {α : Type} (env : List String → String → Option α)
    (bs : List (String × α)) :
    (resolveImports env apisImports = some bs →
      (∀ i ∈ apisImports, ∃ v, (i.symbol, v) ∈ bs ∧ env i.module i.symbol = some v) ∧
      ∀ p ∈ bs, ∃ i ∈ apisImports, i.symbol = p.1 ∧ env i.module i.symbol = some p.2) ∧
    (resolveImports env modelsImports = some bs →
      (∀ i ∈ modelsImports, ∃ v, (i.symbol, v) ∈ bs ∧ env i.module i.symbol = some v) ∧
      ∀ p ∈ bs, ∃ i ∈ modelsImports, i.symbol = p.1 ∧ env i.module i.symbol = some p.2) :=
  ⟨fun h => ⟨resolveImports_complete env apisImports bs h,
             resolveImports_mem env apisImports bs h⟩,
   fun h => ⟨resolveImports_complete env modelsImports bs h,
             resolveImports_mem env modelsImports bs h⟩⟩

/-- Witness for C3: running the apis module against the concrete total
environment `envZero` yields a binding for `EnvironmentApi`, identical to
the object `envZero` holds for it in its defining module. -/
theorem aggregator_reexport_identity_witness :
    ∃ v, ((("EnvironmentApi" : String), v) ∈ apisImports.map (fun i => (i.symbol, (0 : Nat)))) ∧
      envZero ["submarine", "client", "api", "environment_api"] "EnvironmentApi" = some v :=
  ((aggregator_reexport_identity envZero (apisImports.map fun i => (i.symbol, 0))).1
      (by decide)).1
    ⟨["submarine", "client", "api", "environment_api"], "EnvironmentApi"⟩ (by decide)

/-- C4, as stated, is false: the apis aggregator re-exports
`ExperimentTemplateApi`, whose endpoint category `experiment_template`
is not among the six categories the spec's purpose statement names
(environment, experiment, notebook, model_version, registered_model,
serve). -/
theorem experiment_template_category_not_listed :
    (⟨["submarine", "client", "api", "experiment_template_api"],
        "ExperimentTemplateApi"⟩ : ImportStmt) ∈ apisImports ∧
    apiCategory (definingSubmodule
      (⟨["submarine", "client", "api", "experiment_template_api"],
          "ExperimentTemplateApi"⟩ : ImportStmt)) ∉ specCategories := by decide

/-- C4 amended: every API endpoint class the apis aggregator re-exports
belongs to one of the spec's six categories or to the two
experiment-template categories the purpose statement omits. -/
theorem apis_categories_amended :
    ∀ i ∈ apisImports,
      apiCategory (definingSubmodule i) ∈
        specCategories ++ ["experiment_template", "experiment_templates"] := by decide

/-- Witness for the amended C4 at the `EnvironmentApi` import. -/
theorem apis_categories_amended_witness :
    apiCategory (definingSubmodule
      (⟨["submarine", "client", "api", "environment_api"], "EnvironmentApi"⟩ : ImportStmt)) ∈
      specCategories ++ ["experiment_template", "experiment_templates"] :=
  apis_categories_amended
    ⟨["submarine", "client", "api", "environment_api"], "EnvironmentApi"⟩ (by decide)

/-- C5: loading an aggregation module errors if and only if some listed
defining-module/symbol pair fails to resolve; with every referenced symbol
resolving, the load succeeds (is not `none`). -/
theorem aggregator_import_error_iff {α : Type} (env : List String → String → Option α) :
    (resolveImports env apisImports = none ↔
      ∃ i ∈ apisImports, env i.module i.symbol = none) ∧
    (resolveImports env modelsImports = none ↔
      ∃ i ∈ modelsImports, env i.module i.symbol = none) :=
  ⟨resolveImports_none_iff env apisImports, resolveImports_none_iff env modelsImports⟩

/-- C6: an aggregation module is a flat list of import statements, and a
successful load binds exactly the listed symbol names, in order, and
nothing else. -/
theorem aggregator_binds_exactly_listed {α : Type} (env : List String → String → Option α)
    (bs : List (String × α)) :
    (resolveImports env apisImports = some bs → bs.map Prod.fst = exportedNames apisImports) ∧
    (resolveImports env modelsImports = some bs → bs.map Prod.fst = exportedNames modelsImports) :=
  ⟨resolveImports_map_fst env apisImports bs, resolveImports_map_fst env modelsImports bs⟩

/-- Witness for C6: the concrete run of the apis module against `envZero`
binds exactly the exported names. -/
theorem aggregator_binds_exactly_listed_witness :
    (apisImports.map fun i => (i.symbol, (0 : Nat))).map Prod.fst = exportedNames apisImports :=
  (aggregator_binds_exactly_listed envZero (apisImports.map fun i => (i.symbol, 0))).1
    (by decide)

/-- C7: for every class either aggregator re-exports, the defining
submodule's name is exactly the snake_case rendering of the class name. -/
theorem definingSubmodule_eq_snakeCase :
    ∀ i ∈ apisImports ++ modelsImports, definingSubmodule i = snakeCase i.symbol := by decide

/-- Witness for C7 at the `ModelVersionEntity` import. -/
theorem definingSubmodule_eq_snakeCase_witness :
    definingSubmodule (⟨["submarine", "client", "model", "model_version_entity"],
        "ModelVersionEntity"⟩ : ImportStmt) = snakeCase "ModelVersionEntity" :=
  definingSubmodule_eq_snakeCase
    ⟨["submarine", "client", "model", "model_version_entity"], "ModelVersionEntity"⟩ (by decide)

/-- C8: within each aggregation module every symbol name is imported
exactly once (the exported-name lists have no duplicates), and the apis
and models export surfaces are disjoint (their intersection is empty). -/
theorem export_names_nodup_and_disjoint :
    (exportedNames apisImports).Nodup ∧ (exportedNames modelsImports).Nodup ∧
    (exportedNames apisImports).inter (exportedNames modelsImports) = [] := by decide

/-- C9: every apis-aggregator import comes from a submodule of the
singular package `submarine.client.api`, every models-aggregator import
from a submodule of the singular `submarine.client.model`, and the
aggregator package names (`apis`, `models`) differ from the defining
package names (`api`, `model`). -/
theorem defining_packages_singular :
    apisImports.map (fun i => i.module.take 3) =
      List.replicate 8 ["submarine", "client", "api"] ∧
    modelsImports.map (fun i => i.module.take 3) =
      List.replicate 17 ["submarine", "client", "model"] ∧
    apisAggregatorPath.getLastD "" ≠ "api" ∧
    modelsAggregatorPath.getLastD "" ≠ "model" := by decide

end SubmarineClient
